import Mathlib

/-!
# Verification of the sentra UserOperation core

Shallow embedding of the ERC-4337 UserOperation utilities of the sentra
repository, together with proofs about the spec's claims.

Conventions of the embedding:
* TypeScript `bigint` values are modelled as `Nat` (they are uint256
  quantities in this code base) or as `Int` where a JS number may be
  negative; JS bigint division truncates toward zero, which is `Int.tdiv`.
* Hex strings such as `0x....` produced by viem's `toHex(value, { size })`
  are modelled as big-endian byte lists (`List Nat`, one entry per byte,
  each < 256); `toHex` throws when the value does not fit in `size`
  bytes, which is modelled with `Option`.
* Thrown JS exceptions are modelled with `Except String` / `Option`.
-/

/-! ## Byte-level primitives (viem `toHex(value, {size})` and friends) -/

/-- Big-endian byte string of a natural number, fixed width `n` bytes
(the value is taken modulo `256 ^ n`, most significant byte first). -/
def natToBEBytes : Nat → Nat → List Nat
  | 0, _ => []
  | n + 1, v => natToBEBytes n (v / 256) ++ [v % 256]

/-- Read a big-endian byte string back as a natural number. -/
def beBytesToNat (bs : List Nat) : Nat :=
  bs.foldl (fun acc b => acc * 256 + b) 0

/-- viem `toHex(value, { size })` on a `bigint`: the `size`-byte big-endian
encoding, or failure (viem throws `IntegerOutOfRangeError`) when the value
does not fit in `size` bytes. -/
def toHexSized (v size : Nat) : Option (List Nat) :=
  if v < 256 ^ size then some (natToBEBytes size v) else none

theorem natToBEBytes_length (n v : Nat) : (natToBEBytes n v).length = n := by
  induction n generalizing v with
  | zero => rfl
  | succ n ih => simp [natToBEBytes, ih]

theorem beBytesToNat_append (xs ys : List Nat) :
    beBytesToNat (xs ++ ys) =
      beBytesToNat xs * 256 ^ ys.length + beBytesToNat ys := by
  induction ys using List.reverseRecOn with
  | nil => simp [beBytesToNat]
  | append_singleton ys y ih =>
      simp only [beBytesToNat, List.foldl_append, List.foldl_cons,
        List.foldl_nil, List.length_append, List.length_cons,
        List.length_nil] at ih ⊢
      rw [ih]
      ring

theorem beBytesToNat_natToBEBytes (n v : Nat) :
    beBytesToNat (natToBEBytes n v) = v % 256 ^ n := by
  induction n generalizing v with
  | zero => simp [natToBEBytes, beBytesToNat, Nat.mod_one]
  | succ n ih =>
      rw [natToBEBytes, beBytesToNat_append, ih]
      simp only [beBytesToNat, List.length_cons, List.length_nil,
        List.foldl_cons, List.foldl_nil, pow_one, zero_mul, zero_add]
      rw [pow_succ', Nat.mod_mul]
      ring

theorem natToBEBytes_split (m n v : Nat) :
    natToBEBytes (m + n) v =
      natToBEBytes m (v / 256 ^ n) ++ natToBEBytes n v := by
  induction n generalizing v with
  | zero => simp [natToBEBytes]
  | succ n ih =>
      have h : m + (n + 1) = (m + n) + 1 := by omega
      rw [h, natToBEBytes, ih, natToBEBytes]
      simp only [List.append_assoc]
      rw [Nat.div_div_eq_div_mul, ← pow_succ']

theorem natToBEBytes_take (m n v : Nat) :
    (natToBEBytes (m + n) v).take m = natToBEBytes m (v / 256 ^ n) := by
  rw [natToBEBytes_split,
    List.take_append_of_le_length (by simp [natToBEBytes_length]),
    List.take_of_length_le (by simp [natToBEBytes_length])]

theorem natToBEBytes_drop (m n v : Nat) :
    (natToBEBytes (m + n) v).drop m = natToBEBytes n v := by
  rw [natToBEBytes_split,
    List.drop_append_of_le_length (by simp [natToBEBytes_length])]
  simp [natToBEBytes_length, List.drop_of_length_le]

theorem natToBEBytes_zero_eq_replicate (n : Nat) :
    natToBEBytes n 0 = List.replicate n 0 := by
  induction n with
  | zero => rfl
  | succ n ih =>
      rw [natToBEBytes, Nat.zero_div, ih, List.replicate_succ' ]

/-! ## Gas Field Packer (from `packAccountGasLimits` / `packGasFees` /
`pad16` / `buildPaymasterAndData`) -/

/-- `(1n << 128n) - 1n`, the 128-bit mask used by the packers. -/
def mask128 : Nat := (1 <<< 128) - 1

/-- `packAccountGasLimits(callGasLimit, verificationGasLimit)`:
`(verificationGasLimit << 128n) | (callGasLimit & mask128)` rendered by
`toHex(packed, { size: 32 })`.  Note the verification gas limit is *not*
masked, while the call gas limit is. -/
def packAccountGasLimits (callGasLimit verificationGasLimit : Nat) :
    Option (List Nat) :=
  toHexSized ((verificationGasLimit <<< 128) ||| (callGasLimit &&& mask128)) 32

/-- `packGasFees(maxFeePerGas, maxPriorityFeePerGas)`:
`((maxPriorityFeePerGas & mask128) << 128n) | (maxFeePerGas & mask128)`
rendered by `toHex(packed, { size: 32 })`.  Both fields are masked. -/
def packGasFees (maxFeePerGas maxPriorityFeePerGas : Nat) :
    Option (List Nat) :=
  toHexSized (((maxPriorityFeePerGas &&& mask128) <<< 128) |||
    (maxFeePerGas &&& mask128)) 32

/-- `pad16(value)`: `toHex(value ?? 0n, { size: 16 })` without the `0x`
tag — 16 bytes, or failure when the value needs more than 16 bytes. -/
def pad16 (value : Option Nat) : Option (List Nat) :=
  toHexSized (value.getD 0) 16

/-- The high 128 bits and the low 128 bits of a 32-byte big-endian value,
read back as two integers (the unpacking direction used by the spec's
round-trip property). -/
def unpackHighLow (bs : List Nat) : Nat × Nat :=
  (beBytesToNat (bs.take 16), beBytesToNat (bs.drop 16))

/-- `buildPaymasterAndData(paymaster?, verificationGasLimit?,
postOpGasLimit?, data?)`.  The paymaster address arrives as a byte string
(the source keeps it as hex characters and left-pads to 40 characters,
i.e. 20 bytes); absent numeric fields default to `0n`, absent data to the
empty byte string. -/
def buildPaymasterAndData (paymaster : Option (List Nat))
    (verificationGasLimit postOpGasLimit : Option Nat)
    (data : Option (List Nat)) : Option (List Nat) :=
  match paymaster with
  | none => some []
  | some pm =>
      let addr := List.replicate (20 - pm.length) 0 ++ pm
      match pad16 verificationGasLimit, pad16 postOpGasLimit with
      | some verGas, some postGas =>
          some (addr ++ verGas ++ postGas ++ data.getD [])
      | _, _ => none

/-! Arithmetic facts about the packed words. -/

theorem pack_word_eq (c v : Nat) (hc : c < 2 ^ 128) :
    (v <<< 128) ||| c = v * 2 ^ 128 + c := by
  rw [Nat.shiftLeft_eq, mul_comm v (2 ^ 128), ← Nat.mul_add_lt_is_or hc,
    mul_comm (2 ^ 128) v]

theorem mask128_eq (x : Nat) : x &&& mask128 = x % 2 ^ 128 := by
  have h : mask128 = 2 ^ 128 - 1 := by
    rw [mask128, Nat.shiftLeft_eq, one_mul]
  rw [h, Nat.and_pow_two_sub_one_eq_mod]

theorem left_le_lor (a b : Nat) : a ≤ a ||| b :=
  Nat.le_of_testBit fun i h => by simp [Nat.testBit_lor, h]

theorem pow256_16 : (256 : Nat) ^ 16 = 2 ^ 128 := by norm_num

theorem pow256_32 : (256 : Nat) ^ 32 = 2 ^ 256 := by norm_num

theorem packAccountGasLimits_eq (c v : Nat) (hc : c < 2 ^ 128)
    (hv : v < 2 ^ 128) :
    packAccountGasLimits c v = some (natToBEBytes 32 (v * 2 ^ 128 + c)) := by
  have hmask : c &&& mask128 = c := by
    rw [mask128_eq, Nat.mod_eq_of_lt hc]
  have hword : (v <<< 128) ||| (c &&& mask128) = v * 2 ^ 128 + c := by
    rw [hmask, pack_word_eq c v hc]
  have hlt : v * 2 ^ 128 + c < 2 ^ 256 := by
    have h1 : v * 2 ^ 128 ≤ (2 ^ 128 - 1) * 2 ^ 128 :=
      Nat.mul_le_mul_right _ (by omega)
    have h2 : (2 ^ 128 - 1) * 2 ^ 128 + 2 ^ 128 = 2 ^ 256 := by norm_num
    omega
  rw [packAccountGasLimits, hword, toHexSized, pow256_32, if_pos hlt]

theorem packGasFees_eq (f p : Nat) :
    packGasFees f p =
      some (natToBEBytes 32 ((p % 2 ^ 128) * 2 ^ 128 + f % 2 ^ 128)) := by
  have hword : ((p &&& mask128) <<< 128) ||| (f &&& mask128) =
      (p % 2 ^ 128) * 2 ^ 128 + f % 2 ^ 128 := by
    rw [mask128_eq, mask128_eq, pack_word_eq _ _ (Nat.mod_lt _ (by positivity))]
  have hlt : (p % 2 ^ 128) * 2 ^ 128 + f % 2 ^ 128 < 2 ^ 256 := by
    have h1 : p % 2 ^ 128 < 2 ^ 128 := Nat.mod_lt _ (by positivity)
    have h2 : f % 2 ^ 128 < 2 ^ 128 := Nat.mod_lt _ (by positivity)
    have h3 : (p % 2 ^ 128) * 2 ^ 128 ≤ (2 ^ 128 - 1) * 2 ^ 128 :=
      Nat.mul_le_mul_right _ (by omega)
    have h4 : (2 ^ 128 - 1) * 2 ^ 128 + 2 ^ 128 = 2 ^ 256 := by norm_num
    omega
  rw [packGasFees, hword, toHexSized, pow256_32, if_pos hlt]

theorem take16_natToBEBytes32 (x : Nat) :
    beBytesToNat ((natToBEBytes 32 x).take 16) = x / 2 ^ 128 % 2 ^ 128 := by
  have h32 : (32 : Nat) = 16 + 16 := rfl
  rw [h32, natToBEBytes_take, beBytesToNat_natToBEBytes, pow256_16]

theorem drop16_natToBEBytes32 (x : Nat) :
    beBytesToNat ((natToBEBytes 32 x).drop 16) = x % 2 ^ 128 := by
  have h32 : (32 : Nat) = 16 + 16 := rfl
  rw [h32, natToBEBytes_drop, beBytesToNat_natToBEBytes, pow256_16]

theorem high_low_word (hi lo : Nat) (hlo : lo < 2 ^ 128) (hhi : hi < 2 ^ 128) :
    (hi * 2 ^ 128 + lo) / 2 ^ 128 % 2 ^ 128 = hi ∧
      (hi * 2 ^ 128 + lo) % 2 ^ 128 = lo := by
  constructor
  · rw [add_comm, Nat.add_mul_div_right _ _ (Nat.two_pow_pos 128),
      Nat.div_eq_of_lt hlo, Nat.zero_add, Nat.mod_eq_of_lt hhi]
  · rw [add_comm, Nat.add_mul_mod_self_right, Nat.mod_eq_of_lt hlo]

/-- Unpacking direction for `accountGasLimits` used by the round-trip
property: read the low 128 bits back as `callGasLimit` and the high 128
bits back as `verificationGasLimit`. -/
def unpackAccountGasLimits (bs : List Nat) : Nat × Nat :=
  (beBytesToNat (bs.drop 16), beBytesToNat (bs.take 16))

/-- Unpacking direction for `gasFees`: low 128 bits are `maxFeePerGas`,
high 128 bits are `maxPriorityFeePerGas`. -/
def unpackGasFees (bs : List Nat) : Nat × Nat :=
  (beBytesToNat (bs.drop 16), beBytesToNat (bs.take 16))

/-- C1: `packAccountGasLimits(callGasLimit, verificationGasLimit)` returns
a big-endian 32-byte value whose high 128 bits equal
`verificationGasLimit` and whose low 128 bits equal `callGasLimit`, and
`packGasFees(maxFeePerGas, maxPriorityFeePerGas)` returns a 32-byte value
whose high 128 bits equal `maxPriorityFeePerGas` and whose low 128 bits
equal `maxFeePerGas`, for every pair of inputs that each fit in 128
bits. -/
theorem packers_place_high_and_low_bits (c v f p : Nat)
    (hc : c < 2 ^ 128) (hv : v < 2 ^ 128)
    (hf : f < 2 ^ 128) (hp : p < 2 ^ 128) :
    ∃ bs fs : List Nat,
      packAccountGasLimits c v = some bs ∧ bs.length = 32 ∧
      beBytesToNat (bs.take 16) = v ∧ beBytesToNat (bs.drop 16) = c ∧
      packGasFees f p = some fs ∧ fs.length = 32 ∧
      beBytesToNat (fs.take 16) = p ∧ beBytesToNat (fs.drop 16) = f := by
  have hfees : packGasFees f p = some (natToBEBytes 32 (p * 2 ^ 128 + f)) := by
    rw [packGasFees_eq, Nat.mod_eq_of_lt hf, Nat.mod_eq_of_lt hp]
  refine ⟨_, _, packAccountGasLimits_eq c v hc hv, natToBEBytes_length _ _,
    ?_, ?_, hfees, natToBEBytes_length _ _, ?_, ?_⟩
  · rw [take16_natToBEBytes32]
    exact (high_low_word v c hc hv).1
  · rw [drop16_natToBEBytes32]
    exact (high_low_word v c hc hv).2
  · rw [take16_natToBEBytes32]
    exact (high_low_word p f hf hp).1
  · rw [drop16_natToBEBytes32]
    exact (high_low_word p f hf hp).2

theorem packers_place_high_and_low_bits_witness :
    ∃ bs fs : List Nat,
      packAccountGasLimits 1 2 = some bs ∧ bs.length = 32 ∧
      beBytesToNat (bs.take 16) = 2 ∧ beBytesToNat (bs.drop 16) = 1 ∧
      packGasFees 3 4 = some fs ∧ fs.length = 32 ∧
      beBytesToNat (fs.take 16) = 4 ∧ beBytesToNat (fs.drop 16) = 3 :=
  packers_place_high_and_low_bits 1 2 3 4 (by norm_num) (by norm_num)
    (by norm_num) (by norm_num)

/-- C2: for every pair of 128-bit values, unpacking the 32-byte output of
`packAccountGasLimits` (high and low 128 bits read back as two integers)
returns exactly the original `(callGasLimit, verificationGasLimit)` pair;
the same round-trip holds for `packGasFees` on every 128-bit
`(maxFeePerGas, maxPriorityFeePerGas)` pair. -/
theorem pack_unpack_roundtrip (c v f p : Nat)
    (hc : c < 2 ^ 128) (hv : v < 2 ^ 128)
    (hf : f < 2 ^ 128) (hp : p < 2 ^ 128) :
    (packAccountGasLimits c v).map unpackAccountGasLimits = some (c, v) ∧
      (packGasFees f p).map unpackGasFees = some (f, p) := by
  have hfees : packGasFees f p = some (natToBEBytes 32 (p * 2 ^ 128 + f)) := by
    rw [packGasFees_eq, Nat.mod_eq_of_lt hf, Nat.mod_eq_of_lt hp]
  constructor
  · rw [packAccountGasLimits_eq c v hc hv, Option.map_some' ]
    unfold unpackAccountGasLimits
    rw [take16_natToBEBytes32, drop16_natToBEBytes32,
      (high_low_word v c hc hv).1, (high_low_word v c hc hv).2]
  · rw [hfees, Option.map_some' ]
    unfold unpackGasFees
    rw [take16_natToBEBytes32, drop16_natToBEBytes32,
      (high_low_word p f hf hp).1, (high_low_word p f hf hp).2]

theorem pack_unpack_roundtrip_witness :
    (packAccountGasLimits 5 6).map unpackAccountGasLimits = some (5, 6) ∧
      (packGasFees 7 8).map unpackGasFees = some (7, 8) :=
  pack_unpack_roundtrip 5 6 7 8 (by norm_num) (by norm_num) (by norm_num)
    (by norm_num)

/-- C3: `buildPaymasterAndData` returns the empty byte string when no
paymaster address is given; when a 20-byte paymaster address is given
(with sub-field values fitting in 16 bytes), the result is exactly
`20 + 16 + 16 + len(paymasterData)` bytes: the paymaster address, the
verification gas limit zero-padded to 16 bytes, the postOp gas limit
zero-padded to 16 bytes, then the paymaster data; absent numeric
sub-fields are encoded as 16 zero bytes and absent data as empty. -/
theorem buildPaymasterAndData_layout (pm : List Nat)
    (ver post : Option Nat) (data : Option (List Nat))
    (hpm : pm.length = 20)
    (hver : ver.getD 0 < 2 ^ 128) (hpost : post.getD 0 < 2 ^ 128) :
    buildPaymasterAndData none ver post data = some [] ∧
    buildPaymasterAndData (some pm) ver post data =
      some (pm ++ natToBEBytes 16 (ver.getD 0) ++
        natToBEBytes 16 (post.getD 0) ++ data.getD []) ∧
    (pm ++ natToBEBytes 16 (ver.getD 0) ++
        natToBEBytes 16 (post.getD 0) ++ data.getD []).length =
      20 + 16 + 16 + (data.getD []).length ∧
    buildPaymasterAndData (some pm) none none none =
      some (pm ++ List.replicate 16 0 ++ List.replicate 16 0) := by
  have hv16 : pad16 ver = some (natToBEBytes 16 (ver.getD 0)) := by
    rw [pad16, toHexSized, pow256_16, if_pos hver]
  have hp16 : pad16 post = some (natToBEBytes 16 (post.getD 0)) := by
    rw [pad16, toHexSized, pow256_16, if_pos hpost]
  have hz16 : pad16 (none : Option Nat) = some (List.replicate 16 0) := by
    rw [pad16, toHexSized, if_pos (by norm_num), Option.getD_none,
      natToBEBytes_zero_eq_replicate]
  have haddr : List.replicate (20 - pm.length) 0 ++ pm = pm := by
    rw [hpm]
    simp
  refine ⟨rfl, ?_, ?_, ?_⟩
  · rw [buildPaymasterAndData, hv16, hp16]
    simp only [haddr]
  · simp [natToBEBytes_length, hpm]
    omega
  · rw [buildPaymasterAndData, hz16]
    simp [haddr]

theorem buildPaymasterAndData_layout_witness :
    buildPaymasterAndData none (some 1) (some 2) (some [9]) = some [] ∧
    buildPaymasterAndData (some (List.replicate 20 7)) (some 1) (some 2)
        (some [9]) =
      some (List.replicate 20 7 ++ natToBEBytes 16 1 ++
        natToBEBytes 16 2 ++ [9]) ∧
    (List.replicate 20 7 ++ natToBEBytes 16 1 ++
        natToBEBytes 16 2 ++ [9]).length = 20 + 16 + 16 + 1 ∧
    buildPaymasterAndData (some (List.replicate 20 7)) none none none =
      some (List.replicate 20 7 ++ List.replicate 16 0 ++
        List.replicate 16 0) := by
  have h := buildPaymasterAndData_layout (List.replicate 20 7)
    (some 1) (some 2) (some [9]) (by simp) (by norm_num) (by norm_num)
  simpa using h

/-- C4 counterexample: `packGasFees` does *not* fail on a fee value that
exceeds 128 bits — `maxFeePerGas = 2\^128 + 3` is accepted and its low
128 bits are silently reduced to `3`. -/
theorem packGasFees_overflow_is_silent :
    packGasFees (2 ^ 128 + 3) 0 = some (natToBEBytes 32 3) ∧
    beBytesToNat ((natToBEBytes 32 3).drop 16) = 3 ∧
    (2 ^ 128 + 3 : Nat) ≠ 3 := by
  have hmod : (2 ^ 128 + 3) % 2 ^ 128 = 3 := by
    rw [Nat.add_mod_left]
    norm_num
  refine ⟨?_, ?_, by norm_num⟩
  · rw [packGasFees_eq, hmod, Nat.zero_mod, Nat.zero_mul, Nat.zero_add]
  · rw [drop16_natToBEBytes32]
    norm_num

/-- C4 amended: only the `verificationGasLimit` argument of
`packAccountGasLimits` (whose overflow pushes the packed word past 32
bytes) and the two 16-byte numeric sub-fields of `buildPaymasterAndData`
fail with an error on values `≥ 2^128`; the `callGasLimit` argument of
`packAccountGasLimits` and both fee arguments of `packGasFees` are masked
with `& (2^128 - 1)` and silently wrap modulo `2^128` (in particular
`packGasFees` never fails). -/
theorem pack_overflow_behaviour :
    (∀ c v : Nat, 2 ^ 128 ≤ v → packAccountGasLimits c v = none) ∧
    (∀ (pm : List Nat) (ver post : Option Nat) (data : Option (List Nat)),
      2 ^ 128 ≤ ver.getD 0 ∨ 2 ^ 128 ≤ post.getD 0 →
      buildPaymasterAndData (some pm) ver post data = none) ∧
    (∀ c v : Nat, packAccountGasLimits c v =
      packAccountGasLimits (c % 2 ^ 128) v) ∧
    (∀ f p : Nat, packGasFees f p =
      packGasFees (f % 2 ^ 128) (p % 2 ^ 128) ∧
      (packGasFees f p).isSome = true) := by
  refine ⟨?_, ?_, ?_, ?_⟩
  · intro c v hv
    have hge : 2 ^ 256 ≤ (v <<< 128) ||| (c &&& mask128) := by
      calc 2 ^ 256 = 2 ^ 128 * 2 ^ 128 := by norm_num
        _ ≤ v * 2 ^ 128 := Nat.mul_le_mul_right _ hv
        _ = v <<< 128 := (Nat.shiftLeft_eq v 128).symm
        _ ≤ (v <<< 128) ||| (c &&& mask128) := left_le_lor _ _
    rw [packAccountGasLimits, toHexSized, pow256_32, if_neg (by omega)]
  · intro pm ver post data hover
    rcases hover with h | h
    · have : pad16 ver = none := by
        rw [pad16, toHexSized, pow256_16, if_neg (by omega)]
      rw [buildPaymasterAndData, this]
    · have : pad16 post = none := by
        rw [pad16, toHexSized, pow256_16, if_neg (by omega)]
      rw [buildPaymasterAndData, this]
      cases pad16 ver <;> rfl
  · intro c v
    rw [packAccountGasLimits, packAccountGasLimits, mask128_eq, mask128_eq,
      Nat.mod_mod_of_dvd _ dvd_rfl]
  · intro f p
    constructor
    · rw [packGasFees_eq, packGasFees_eq, Nat.mod_mod_of_dvd _ dvd_rfl,
        Nat.mod_mod_of_dvd _ dvd_rfl]
    · rw [packGasFees_eq]
      rfl

theorem pack_overflow_behaviour_witness :
    packAccountGasLimits 0 (2 ^ 128) = none ∧
    buildPaymasterAndData (some (List.replicate 20 7)) (some (2 ^ 128))
      none none = none ∧
    packGasFees (2 ^ 128 + 3) (2 ^ 128 + 4) =
      packGasFees ((2 ^ 128 + 3) % 2 ^ 128) ((2 ^ 128 + 4) % 2 ^ 128) :=
  ⟨pack_overflow_behaviour.1 0 (2 ^ 128) (le_refl _),
    pack_overflow_behaviour.2.1 (List.replicate 20 7) (some (2 ^ 128))
      none none (Or.inl (by simp)),
    (pack_overflow_behaviour.2.2.2 (2 ^ 128 + 3) (2 ^ 128 + 4)).1⟩

/-! ## Keccak-256 (the `keccak256` / `stringToBytes` library functions used
by `toSelector`) -/

set_option maxRecDepth 1000000

/-- The lane modulus of Keccak-f[1600]: each lane is a 64-bit word. -/
def w64 : Nat := 2 ^ 64

/-- The 64-bit rotate-left. -/
def rotl64 (x n : Nat) : Nat :=
  ((x <<< (n % 64)) ||| (x >>> (64 - n % 64))) % w64

/-- The Keccak round constants (FIPS 202, written in decimal). -/
def keccakRC : List Nat :=
  [1, 32898,
   9223372036854808714, 9223372039002292224,
   32907, 2147483649,
   9223372039002292353, 9223372036854808585,
   138, 136,
   2147516425, 2147483658,
   2147516555, 9223372036854775947,
   9223372036854808713, 9223372036854808579,
   9223372036854808578, 9223372036854775936,
   32778, 9223372039002259466,
   9223372039002292353, 9223372036854808704,
   2147483649, 9223372039002292232]

/-- The rho rotation offsets, indexed by lane index `x + 5*y`, one row of
the 5x5 state per list. -/
def keccakRho : List Nat :=
  [0, 1, 62, 28, 27] ++ [36, 44, 6, 55, 20] ++ [3, 10, 43, 25, 39] ++
    [41, 45, 15, 21, 8] ++ [18, 2, 61, 56, 14]

/-- One Keccak-f[1600] round (theta, rho, pi, chi, iota) on a 25-lane
state. -/
def keccakRound (s : List Nat) (rc : Nat) : List Nat :=
  let ln := fun (x y : Nat) => s.getD (x + 5 * y) 0
  let c := (List.range 5).map fun x =>
    ln x 0 ^^^ ln x 1 ^^^ ln x 2 ^^^ ln x 3 ^^^ ln x 4
  let d := (List.range 5).map fun x =>
    c.getD ((x + 4) % 5) 0 ^^^ rotl64 (c.getD ((x + 1) % 5) 0) 1
  let a := (List.range 25).map fun i =>
    s.getD i 0 ^^^ d.getD (i % 5) 0
  let b := (List.range 25).map fun j =>
    let jx := j % 5
    let jy := j / 5
    let x := (jx + 3 * jy) % 5
    let y := jx
    rotl64 (a.getD (x + 5 * y) 0) (keccakRho.getD (x + 5 * y) 0)
  let e := (List.range 25).map fun j =>
    let jx := j % 5
    let jy := j / 5
    b.getD j 0 ^^^
      ((b.getD ((jx + 1) % 5 + 5 * jy) 0 ^^^ (w64 - 1)) &&&
        b.getD ((jx + 2) % 5 + 5 * jy) 0)
  e.set 0 (e.getD 0 0 ^^^ rc)

/-- The full Keccak-f[1600] permutation (24 rounds). -/
def keccakF (s : List Nat) : List Nat :=
  keccakRC.foldl keccakRound s

/-- Read a little-endian byte list as a natural number. -/
def leBytesToNat (bs : List Nat) : Nat :=
  bs.foldr (fun b acc => acc * 256 + b) 0

/-- Little-endian byte string of a natural number, width `n` bytes. -/
def natToLEBytes : Nat → Nat → List Nat
  | 0, _ => []
  | n + 1, v => v % 256 :: natToLEBytes n (v / 256)

/-- The Keccak multi-rate padding for rate 136 (first pad byte `0x01`,
last `0x80`; this is the original Keccak padding used by Ethereum's
keccak256, not the SHA-3 variant). -/
def keccakPad (len : Nat) : List Nat :=
  let padLen := 136 - len % 136
  if padLen = 1 then [0x81]
  else 0x01 :: List.replicate (padLen - 2) 0 ++ [0x80]

/-- Absorb one 136-byte block into the sponge state and permute. -/
def absorbBlock (s block : List Nat) : List Nat :=
  let lanes := (List.range 17).map fun i =>
    leBytesToNat ((block.drop (8 * i)).take 8)
  keccakF ((List.range 25).map fun i =>
    s.getD i 0 ^^^ (if i < 17 then lanes.getD i 0 else 0))

/-- Rate-block splitter; `fuel` bounds the number of steps and is
instantiated with the length of the list, which suffices because every
step consumes at least one element. -/
def chunksAux : Nat → List Nat → List (List Nat)
  | _, [] => []
  | 0, l => [l]
  | fuel + 1, a :: t =>
      List.take 136 (a :: t) :: chunksAux fuel (List.drop 136 (a :: t))

/-- Split a byte string into 136-byte rate blocks. -/
def chunks136 (l : List Nat) : List (List Nat) :=
  chunksAux l.length l

/-- The keccak256 hash of a byte string: a 32-byte digest. -/
def keccak256 (msg : List Nat) : List Nat :=
  let padded := msg ++ keccakPad msg.length
  let finalState := (chunks136 padded).foldl absorbBlock
    (List.replicate 25 0)
  (List.range 4).foldr
    (fun i acc => natToLEBytes 8 (finalState.getD i 0) ++ acc) []

/-- Lowercase hex digit of a value below 16. -/
def hexDigitChar (n : Nat) : Char :=
  if n < 10 then Char.ofNat (48 + n) else Char.ofNat (87 + n)

/-- Lowercase hex rendering of a byte string (without the `0x` tag). -/
def bytesToHexChars (bs : List Nat) : List Char :=
  bs.foldr (fun b acc => hexDigitChar (b / 16) :: hexDigitChar (b % 16) :: acc) []

/-- The UTF-8 bytes of one character (viem's `stringToBytes` encodes the
signature string as UTF-8). -/
def utf8BytesOfChar (c : Char) : List Nat :=
  let n := c.toNat
  if n < 0x80 then [n]
  else if n < 0x800 then [0xC0 + n / 64, 0x80 + n % 64]
  else if n < 0x10000 then
    [0xE0 + n / 4096, 0x80 + n / 64 % 64, 0x80 + n % 64]
  else
    [0xF0 + n / 262144, 0x80 + n / 4096 % 64, 0x80 + n / 64 % 64,
      0x80 + n % 64]

/-- The UTF-8 encoding of a string (viem `stringToBytes`). -/
def utf8Encode (s : String) : List Nat :=
  s.toList.foldr (fun c acc => utf8BytesOfChar c ++ acc) []

/-! ## Selector/ABI codec (from `src/lib/selectors.ts`) -/

/-- JS `String.prototype.trim` on a character list: drop leading and
trailing whitespace. -/
def trimChars (cs : List Char) : List Char :=
  ((cs.dropWhile Char.isWhitespace).reverse.dropWhile
    Char.isWhitespace).reverse

/-- JS `String.prototype.trim`. -/
def trimStr (s : String) : String :=
  String.mk (trimChars s.toList)

/-- The selector computed by hashing: `0x` plus the first eight hex
characters of `keccak256(stringToBytes(raw))` (i.e. `hash.slice(2, 10)`
prefixed back with `0x`). -/
def hashSelector (s : String) : String :=
  "0x" ++ String.mk ((bytesToHexChars (keccak256 (utf8Encode s))).take 8)

/-- JS `s.startsWith("0x")`, written out character-wise (Lean's own
`String.startsWith` is defined by well-founded recursion and does not
evaluate inside the kernel). -/
def startsWith0x (s : String) : Bool :=
  match s.toList with
  | '0' :: 'x' :: _ => true
  | _ => false

/-- `toSelector(input)`: trim; throw `"empty"` on an empty result; pass a
`0x`-prefixed string of length 10 through unchanged; otherwise hash the
signature and keep the first 4 bytes. -/
def toSelector (input : String) : Except String String :=
  let raw := trimStr input
  if raw = "" then Except.error "empty"
  else if startsWith0x raw ∧ raw.length = 10 then Except.ok raw
  else Except.ok (hashSelector raw)

/-- One parsed selector entry: the 4-byte selector and, for signature
chunks, the original signature retained for display. -/
structure SelectorEntry where
  selector : String
  signature : Option String
deriving DecidableEq, Repr

/-- The comma splitter of `splitSignatures`: walk the characters keeping
a parenthesis depth; a comma at depth zero ends the current chunk, which
is trimmed and kept only when nonempty. -/
def splitSigAux : List Char → List Char → Nat → List (List Char)
  | [], current, _ =>
      let t := trimChars current
      if t = [] then [] else [t]
  | ch :: rest, current, depth =>
      if ch = ',' ∧ depth = 0 then
        let t := trimChars current
        (if t = [] then [] else [t]) ++ splitSigAux rest [] 0
      else
        let depth' := if ch = '(' then depth + 1
          else if ch = ')' ∧ depth > 0 then depth - 1 else depth
        splitSigAux rest (current ++ [ch]) depth'

/-- `splitSignatures(csv)`. -/
def splitSignatures (csv : String) : List String :=
  (splitSigAux csv.toList [] 0).map fun cs => String.mk cs

/-- The per-chunk mapping of `parseSelectorEntries`: chunks starting with
`0x` keep no signature field, other chunks retain the chunk as the
signature; a thrown `toSelector` error propagates. -/
def mapEntries : List String → Except String (List SelectorEntry)
  | [] => Except.ok []
  | chunk :: rest => do
      let entry ←
        if startsWith0x chunk then do
          let sel ← toSelector chunk
          pure (SelectorEntry.mk sel none)
        else do
          let sel ← toSelector chunk
          pure (SelectorEntry.mk sel (some chunk))
      let others ← mapEntries rest
      Except.ok (entry :: others)

/-- `parseSelectorEntries(csv)`: reject embedded newlines, split into
chunks, map each chunk to an entry. -/
def parseSelectorEntries (csv : String) : Except String (List SelectorEntry) :=
  if csv.toList.contains '\n' then
    Except.error "Use commas to separate function signatures"
  else
    mapEntries (splitSignatures csv)

/-! Properties of trimming and splitting. -/

theorem dropWhile_eq_self_of_head {α : Type} (p : α → Bool) (l : List α)
    (h : ∀ x ∈ l.head?, p x = false) : l.dropWhile p = l := by
  cases l with
  | nil => rfl
  | cons a t =>
      have ha := h a (by simp)
      simp [List.dropWhile_cons, ha]

theorem dropWhile_idem {α : Type} (p : α → Bool) (l : List α) :
    (l.dropWhile p).dropWhile p = l.dropWhile p := by
  induction l with
  | nil => rfl
  | cons a t ih =>
      by_cases h : p a
      · simp [List.dropWhile_cons, h, ih]
      · simp [List.dropWhile_cons, h]

theorem getLast_trim_aux (w : Char → Bool) (cs : List Char) :
    ∀ x ∈ ((cs.dropWhile w).reverse.dropWhile w).getLast?, w x = false := by
  intro x hx
  obtain ⟨pre, hpre⟩ :=
    List.dropWhile_suffix (l := (cs.dropWhile w).reverse) (p := w)
  have hlast := congrArg List.getLast? hpre
  rw [List.getLast?_append, List.getLast?_reverse] at hlast
  rw [Option.mem_def] at hx
  rw [hx] at hlast
  simp only [Option.or] at hlast
  have hmatch := List.head?_dropWhile_not w cs
  rw [← hlast] at hmatch
  exact hmatch

theorem trimChars_idem (cs : List Char) :
    trimChars (trimChars cs) = trimChars cs := by
  have h1 : (trimChars cs).dropWhile Char.isWhitespace = trimChars cs := by
    apply dropWhile_eq_self_of_head
    intro x hx
    rw [trimChars, List.head?_reverse] at hx
    exact getLast_trim_aux Char.isWhitespace cs x hx
  rw [trimChars, h1, trimChars, List.reverse_reverse, dropWhile_idem]

theorem splitSigAux_chunks (l : List Char) :
    ∀ current depth chunk, chunk ∈ splitSigAux l current depth →
      trimChars chunk = chunk ∧ chunk ≠ [] := by
  induction l with
  | nil =>
      intro current depth chunk hmem
      rw [splitSigAux] at hmem
      by_cases h : trimChars current = []
      · rw [if_pos h] at hmem
        simp at hmem
      · rw [if_neg h] at hmem
        simp only [List.mem_singleton] at hmem
        subst hmem
        exact ⟨trimChars_idem current, h⟩
  | cons ch rest ih =>
      intro current depth chunk hmem
      rw [splitSigAux] at hmem
      by_cases hc : ch = ',' ∧ depth = 0
      · rw [if_pos hc] at hmem
        rw [List.mem_append] at hmem
        rcases hmem with hmem | hmem
        · by_cases h : trimChars current = []
          · rw [if_pos h] at hmem
            simp at hmem
          · rw [if_neg h] at hmem
            simp only [List.mem_singleton] at hmem
            subst hmem
            exact ⟨trimChars_idem current, h⟩
        · exact ih _ _ _ hmem
      · rw [if_neg hc] at hmem
        exact ih _ _ _ hmem

theorem splitSignatures_chunks (csv : String) :
    ∀ chunk ∈ splitSignatures csv, trimStr chunk = chunk ∧ chunk ≠ "" := by
  intro chunk hmem
  rw [splitSignatures, List.mem_map] at hmem
  obtain ⟨cs, hcs, rfl⟩ := hmem
  obtain ⟨htrim, hne⟩ := splitSigAux_chunks csv.toList [] 0 cs hcs
  constructor
  · rw [trimStr]
    show String.mk (trimChars (String.mk cs).toList) = String.mk cs
    rw [show (String.mk cs).toList = cs from rfl, htrim]
  · intro h
    apply hne
    have : (String.mk cs).data = ("" : String).data := by rw [h]
    simpa using this

theorem toSelector_of_trimmed (chunk : String)
    (ht : trimStr chunk = chunk) (hne : chunk ≠ "") :
    toSelector chunk =
      if startsWith0x chunk ∧ chunk.length = 10 then Except.ok chunk
      else Except.ok (hashSelector chunk) := by
  rw [toSelector, ht, if_neg hne]


instance exceptDecEq {ε α : Type} [DecidableEq ε] [DecidableEq α] :
    DecidableEq (Except ε α)
  | .error e, .error f =>
      if h : e = f then .isTrue (by rw [h]) else .isFalse (by simp [h])
  | .error _, .ok _ => .isFalse (by simp)
  | .ok _, .error _ => .isFalse (by simp)
  | .ok a, .ok b =>
      if h : a = b then .isTrue (by rw [h]) else .isFalse (by simp [h])

/-- C7: `parseSelectorEntries` splits its input on commas only at
parenthesis nesting depth zero and trims whitespace from each chunk:
`"mint(),mintTo(address,uint256)"` parses into exactly two entries and
the comma inside `mintTo(address,uint256)` does not split that
signature; a whitespace-laden variant is trimmed chunkwise, and every
chunk produced by the splitter is trimmed and nonempty. -/
theorem selector_list_splitting :
    parseSelectorEntries "mint(),mintTo(address,uint256)" =
      Except.ok [SelectorEntry.mk "0x1249c58b" (some "mint()"),
        SelectorEntry.mk "0x449a52f8" (some "mintTo(address,uint256)")] ∧
    splitSignatures " mint() ,  mintTo(address,uint256) " =
      ["mint()", "mintTo(address,uint256)"] ∧
    ∀ csv : String, ∀ chunk ∈ splitSignatures csv,
      trimStr chunk = chunk ∧ chunk ≠ "" :=
  ⟨by decide, by decide, splitSignatures_chunks⟩

/-- C8 counterexample: the chunk `0xZZZZZZZZ` (`0x` followed by 8
non-hex characters) is accepted unchanged by `parseSelectorEntries`
instead of failing with an `InvalidSelectorInput` error. -/
theorem invalid_hex_chunk_accepted :
    parseSelectorEntries "0xZZZZZZZZ" =
      Except.ok [SelectorEntry.mk "0xZZZZZZZZ" none] := by decide

/-- C8 amended: for every chunk of the selector list, a chunk that starts
with `0x` and has length 10 is accepted unchanged with no hex-character
validation and no retained signature; every other chunk (including a
`0x`-prefixed chunk of the wrong length, which is hashed rather than
rejected) has its selector recomputed by keccak-hashing the chunk, the
original signature being retained only for chunks not starting with
`0x`; no `InvalidSelectorInput` error exists — the only failure of
`parseSelectorEntries` is for input containing a newline. -/
theorem parse_entries_behaviour (csv : String) :
    (csv.toList.contains '\n' = true →
      parseSelectorEntries csv =
        Except.error "Use commas to separate function signatures") ∧
    (csv.toList.contains '\n' = false →
      parseSelectorEntries csv =
        Except.ok ((splitSignatures csv).map fun chunk =>
          if startsWith0x chunk ∧ chunk.length = 10 then
            SelectorEntry.mk chunk none
          else if startsWith0x chunk then
            SelectorEntry.mk (hashSelector chunk) none
          else SelectorEntry.mk (hashSelector chunk) (some chunk))) := by
  constructor
  · intro h
    rw [parseSelectorEntries, if_pos h]
  · intro h
    rw [parseSelectorEntries, if_neg (by rw [h]; simp)]
    have hchunks := splitSignatures_chunks csv
    generalize splitSignatures csv = chunks at hchunks ⊢
    induction chunks with
    | nil => rfl
    | cons c rest ih =>
        obtain ⟨ht, hne⟩ := hchunks c (by simp)
        have hrest := ih fun chunk hm => hchunks chunk (by simp [hm])
        have hts := toSelector_of_trimmed c ht hne
        rw [mapEntries]
        by_cases h0 : startsWith0x c = true
        · by_cases h10 : c.length = 10
          · simp only [hts, hrest, h0, h10, if_true, if_pos (And.intro h0 h10),
              List.map_cons]
            rfl
          · simp only [hts, hrest, h0, h10, List.map_cons,
              if_neg (fun hand : startsWith0x c = true ∧ c.length = 10 => h10 hand.2), if_pos h0, if_true]
            rfl
        · simp only [hts, hrest, h0, List.map_cons,
            if_neg (fun hand : startsWith0x c = true ∧ c.length = 10 => h0 hand.1), if_neg h0, Bool.false_eq_true,
            if_false]
          rfl

theorem parse_entries_behaviour_witness :
    parseSelectorEntries "a\nb" =
      Except.error "Use commas to separate function signatures" ∧
    parseSelectorEntries "0xabcdef01" =
      Except.ok ((splitSignatures "0xabcdef01").map fun chunk =>
        if startsWith0x chunk ∧ chunk.length = 10 then
          SelectorEntry.mk chunk none
        else if startsWith0x chunk then
          SelectorEntry.mk (hashSelector chunk) none
        else SelectorEntry.mk (hashSelector chunk) (some chunk)) :=
  ⟨(parse_entries_behaviour "a\nb").1 (by decide),
    (parse_entries_behaviour "0xabcdef01").2 (by decide)⟩

/-- C9: `toSelector` returns a trimmed input unchanged when it is `0x`
followed by 8 characters (length 10 in total); otherwise it returns `0x`
plus the first 4 bytes of the Keccak-256 hash of the trimmed signature;
inputs with equal trimmed forms always yield equal selectors; input that
is empty after trimming fails with an error. -/
theorem toSelector_behaviour (input : String) :
    (trimStr input = "" → toSelector input = Except.error "empty") ∧
    (startsWith0x (trimStr input) ∧ (trimStr input).length = 10 →
      toSelector input = Except.ok (trimStr input)) ∧
    (trimStr input ≠ "" →
      ¬(startsWith0x (trimStr input) ∧ (trimStr input).length = 10) →
      toSelector input = Except.ok (hashSelector (trimStr input))) ∧
    (∀ other : String, trimStr other = trimStr input →
      toSelector other = toSelector input) := by
  refine ⟨?_, ?_, ?_, ?_⟩
  · intro h
    rw [toSelector, if_pos h]
  · intro h
    have hne : trimStr input ≠ "" := by
      intro he
      rw [he] at h
      simp at h
    rw [toSelector, if_neg hne, if_pos h]
  · intro hne hnot
    rw [toSelector, if_neg hne, if_neg hnot]
  · intro other h
    rw [toSelector, toSelector, h]

theorem toSelector_behaviour_witness :
    toSelector "   " = Except.error "empty" ∧
    toSelector " 0xabcdef01 " = Except.ok (trimStr " 0xabcdef01 ") ∧
    toSelector "mint()" = Except.ok (hashSelector (trimStr "mint()")) :=
  ⟨(toSelector_behaviour "   ").1 (by decide),
    (toSelector_behaviour " 0xabcdef01 ").2.1 (by decide),
    (toSelector_behaviour "mint()").2.2.1 (by decide) (by decide)⟩

/-! ## Gas Estimator & Scaler (from `scaleGas` and its three per-field
uses in `sendPreparedUserOperation`) -/

/-- `scaleGas(base, percent)`: `(base * BigInt(percent)) / 100n`.  JS
bigint division truncates toward zero, which is `Int.tdiv`. -/
def scaleGas (base : Int) (percent : Int) : Int :=
  (base * percent).tdiv 100

/-- The three gas fields of a bundler estimate. -/
structure GasEstimate where
  callGasLimit : Int
  verificationGasLimit : Int
  preVerificationGas : Int
deriving DecidableEq, Repr

/-- The three independent `scaleGas` applications performed by
`sendPreparedUserOperation` with the per-field scaling percentages. -/
def scaleEstimate (e : GasEstimate) (pc pv pp : Int) : GasEstimate :=
  GasEstimate.mk (scaleGas e.callGasLimit pc)
    (scaleGas e.verificationGasLimit pv)
    (scaleGas e.preVerificationGas pp)

theorem tdiv100_mono {x y : Int} (h : x ≤ y) : x.tdiv 100 ≤ y.tdiv 100 := by
  rcases le_or_lt 0 x with hx | hx
  · have hy : 0 ≤ y := le_trans hx h
    rw [Int.tdiv_eq_ediv hx (by norm_num), Int.tdiv_eq_ediv hy (by norm_num)]
    exact Int.ediv_le_ediv (by norm_num) h
  · rcases le_or_lt 0 y with hy | hy
    · have hnx : (0 : Int) ≤ -x := by omega
      have h1 : 0 ≤ (-x).tdiv 100 := Int.tdiv_nonneg hnx (by norm_num)
      have h2 : 0 ≤ y.tdiv 100 := Int.tdiv_nonneg hy (by norm_num)
      have h3 : (-x).tdiv 100 = -(x.tdiv 100) := Int.neg_tdiv x 100
      omega
    · have hnx : (0 : Int) ≤ -x := by omega
      have hny : (0 : Int) ≤ -y := by omega
      have hle : -y ≤ -x := by omega
      have hstep := Int.ediv_le_ediv (c := 100) (by norm_num) hle
      rw [← Int.tdiv_eq_ediv hny (by norm_num),
        ← Int.tdiv_eq_ediv hnx (by norm_num)] at hstep
      rw [Int.neg_tdiv, Int.neg_tdiv] at hstep
      omega

/-- C6: gas scaling computes `floor(base * percent / 100)` for each gas
field independently (call, verification, pre-verification — the three
fields are scaled by three separate `scaleGas` calls), and is monotone in
the percentage for every fixed nonnegative base estimate. -/
theorem scaleGas_floor_and_monotone (base p p1 p2 : Int) (hbase : 0 ≤ base) :
    (0 ≤ p → scaleGas base p = Int.fdiv (base * p) 100) ∧
    (p1 ≤ p2 → scaleGas base p1 ≤ scaleGas base p2) ∧
    (∀ (e : GasEstimate) (pc pv pp : Int),
      scaleEstimate e pc pv pp =
        GasEstimate.mk (scaleGas e.callGasLimit pc)
          (scaleGas e.verificationGasLimit pv)
          (scaleGas e.preVerificationGas pp)) := by
  refine ⟨?_, ?_, fun e pc pv pp => rfl⟩
  · intro hp
    rw [scaleGas, Int.fdiv_eq_tdiv (mul_nonneg hbase hp) (by norm_num)]
  · intro h
    exact tdiv100_mono (mul_le_mul_of_nonneg_left h hbase)

theorem scaleGas_floor_and_monotone_witness :
    scaleGas 250 80 = Int.fdiv (250 * 80) 100 ∧
      scaleGas 250 80 ≤ scaleGas 250 120 :=
  ⟨(scaleGas_floor_and_monotone 250 80 80 120 (by norm_num)).1 (by norm_num),
    (scaleGas_floor_and_monotone 250 80 80 120 (by norm_num)).2.1
      (by norm_num)⟩

/-! ## Pre-flight Simulator (from `Simulator.tsx`: `extractErrorCode`,
`extractReadableError`, the `handleSimulate` extraction glue and
`mutateForPreset`) -/

/-- A JSON-RPC error object (only the `message` field is read). -/
structure RpcErrObj where
  message : String
deriving DecidableEq, Repr

/-- One trace frame of the simulation response. -/
structure TraceFrame where
  error : Option String
  errorReason : Option String
  revertReason : Option String
deriving DecidableEq, Repr

/-- The `result` object of the simulation response. -/
structure SimRpcResult where
  status : Option Bool
  error : Option RpcErrObj
  trace : Option (List TraceFrame)
deriving DecidableEq, Repr

/-- The simulation RPC response envelope. -/
structure SimResponse where
  error : Option RpcErrObj
  result : Option SimRpcResult
deriving DecidableEq, Repr

/-- `trimNullChars(value)`: `value.replace(/\u0000/g, "").trim()`. -/
def trimNullChars (s : String) : String :=
  trimStr (String.mk (s.toList.filter fun c => c != Char.ofNat 0))

/-- Head test of the regex `AA\d{2}` at the current position. -/
def isAAMatch : List Char → Bool
  | a :: b :: d1 :: d2 :: _ =>
      a = 'A' && b = 'A' && d1.isDigit && d2.isDigit
  | _ => false

/-- Leftmost match of the regex `AA\d{2}` (the capture of
`/(AA\d{2})/.exec(message)`). -/
def findAACode : List Char → Option String
  | [] => none
  | c :: rest =>
      if isAAMatch (c :: rest) then some (String.mk ((c :: rest).take 4))
      else findAACode rest

/-- `response?.error?.message ?? response?.result?.error?.message ?? ""`. -/
def topErrorMessage (resp : SimResponse) : String :=
  match resp.error with
  | some e => e.message
  | none =>
      match resp.result with
      | some r =>
          match r.error with
          | some e => e.message
          | none => ""
      | none => ""

/-- `extractErrorCode(response)`: scan the top-level error message for an
`AA` code. -/
def extractErrorCode (resp : SimResponse) : Option String :=
  findAACode (topErrorMessage resp).toList

/-- JS `array.join(": ")`. -/
def joinColon : List String → String
  | [] => ""
  | [s] => s
  | s :: rest => s ++ ": " ++ joinColon rest

/-- The `reasonRaw` chain of the first-trace-entry branch:
`traceEntry?.errorReason ?? traceEntry?.revertReason ??
response?.result?.error?.message ?? ""`. -/
def frameReasonRaw (resp : SimResponse) (entry : TraceFrame) : String :=
  match entry.errorReason, entry.revertReason,
      resp.result.bind SimRpcResult.error with
  | some r, _, _ => r
  | none, some r, _ => r
  | none, none, some e => e.message
  | none, none, none => ""

/-- The `combined` string of the first-trace-entry branch:
`[error, reason].map(p => p?.trim()).filter(Boolean).join(": ")`. -/
def frameCombined (resp : SimResponse) (entry : TraceFrame) : String :=
  joinColon (List.filter (fun s => s != "")
    [trimStr (entry.error.getD ""),
      trimStr (trimNullChars (frameReasonRaw resp entry))])

/-- The last-trace-frame fallback: the last frame's `error` string when
it is truthy and still nonempty after NUL-stripping, with the
`execution reverted: ` tag. -/
def lastFrameFallback (resp : SimResponse) : Option String :=
  match resp.result.bind SimRpcResult.trace with
  | some (entry :: rest) =>
      let lastEntry := rest.getLastD entry
      match lastEntry.error with
      | some e =>
          if e = "" then none
          else if trimNullChars e = "" then none
          else some ("execution reverted: " ++ trimNullChars e)
      | none => none
  | _ => none

/-- `extractReadableError(response)`. -/
def extractReadableError (resp : SimResponse) : Option String :=
  if resp.result.bind SimRpcResult.status = some false then
    match resp.result.bind SimRpcResult.trace with
    | some (entry :: _) =>
        if frameCombined resp entry ≠ "" then some (frameCombined resp entry)
        else
          match lastFrameFallback resp with
          | some c => some c
          | none => some "Simulation failed. Please inspect the trace."
    | _ =>
        match lastFrameFallback resp with
        | some c => some c
        | none => some "Simulation failed. Please inspect the trace."
  else
    let cleaned := trimNullChars (topErrorMessage resp)
    if cleaned = "" then none else some cleaned

/-- The panel status of a simulation run. -/
inductive SimStatus where
  | success
  | error
deriving DecidableEq, Repr

/-- The structured outcome stored by `handleSimulate` for one run. -/
structure SimulationOutcome where
  status : SimStatus
  code : Option String
  message : String
deriving DecidableEq, Repr

/-- The extraction glue of `handleSimulate`: `code = extractErrorCode`,
`readableError = extractReadableError`, success iff
`json?.result?.status === true`, `message = readableError ??
(code ? "Detected code: " + code : "Simulation response requires
review.")` (or the fixed success text), `code` cleared on success. -/
def simOutcome (resp : SimResponse) : SimulationOutcome :=
  let code := extractErrorCode resp
  let readableError := extractReadableError resp
  let simulationSucceeded := resp.result.bind SimRpcResult.status = some true
  let errorMessage :=
    match readableError with
    | some r => r
    | none =>
        match code with
        | some c => "Detected code: " ++ c
        | none => "Simulation response requires review."
  SimulationOutcome.mk
    (if simulationSucceeded then SimStatus.success else SimStatus.error)
    (if simulationSucceeded then none else code)
    (if simulationSucceeded then "Simulation succeeded." else errorMessage)

theorem findAACode_shape : ∀ (cs : List Char) (code : String),
    findAACode cs = some code →
    ∃ d1 d2 : Char, d1.isDigit ∧ d2.isDigit ∧
      code = String.mk ['A', 'A', d1, d2] := by
  intro cs
  induction cs with
  | nil =>
      intro code h
      simp [findAACode] at h
  | cons c rest ih =>
      intro code h
      rw [findAACode] at h
      by_cases hm : isAAMatch (c :: rest) = true
      · rw [if_pos hm] at h
        cases rest with
        | nil => simp [isAAMatch] at hm
        | cons b rest2 =>
            cases rest2 with
            | nil => simp [isAAMatch] at hm
            | cons d1 rest3 =>
                cases rest3 with
                | nil => simp [isAAMatch] at hm
                | cons d2 tail =>
                    rw [isAAMatch] at hm
                    simp only [Bool.and_eq_true, decide_eq_true_eq] at hm
                    obtain ⟨⟨⟨ha, hb⟩, h1⟩, h2⟩ := hm
                    subst ha
                    subst hb
                    refine ⟨d1, d2, h1, h2, ?_⟩
                    simp only [List.take, Option.some.injEq] at h
                    exact h.symm
      · rw [if_neg hm] at h
        exact ih code h

/-- C5 counterexample: on a reverting response whose trace frames carry
the errors `E0` (first, shallow) and `E1` (last, deepest) and whose
top-level error message is absent, the surfaced free-text reason is the
*first* frame's `E0`, not the deepest frame's `E1`; moreover, an `AA23`
code that appears only in a trace frame's revert reason is *not* found
by the code scan, which reads only the top-level error message. -/
theorem deepest_frame_not_surfaced :
    extractErrorCode (SimResponse.mk none (some (SimRpcResult.mk
      (some false) none (some [TraceFrame.mk (some "E0") none none,
        TraceFrame.mk (some "E1") none none])))) = none ∧
    (simOutcome (SimResponse.mk none (some (SimRpcResult.mk
      (some false) none (some [TraceFrame.mk (some "E0") none none,
        TraceFrame.mk (some "E1") none none]))))).message = "E0" ∧
    trimNullChars "E1" = "E1" ∧
    ("E0" : String) ≠ "E1" ∧
    extractErrorCode (SimResponse.mk none (some (SimRpcResult.mk
      (some false) none
      (some [TraceFrame.mk none (some "AA23 reverted") none])))) = none := by
  decide

/-- C5 amended: if the top-level `result.status` is exactly `true` the
outcome is success (fixed message, no code); otherwise the outcome is an
error whose structured code is the leftmost `AA\d{2}` match in the
*top-level* error message (`response.error.message` or
`result.error.message`), not in the trace; when `status` is `false` the
free-text message comes from the *first* trace entry's combined
error/reason strings when nonempty, and only as a fallback from the last
("deepest") trace frame's NUL-stripped error with an
`execution reverted: ` tag; every code the scan returns has the shape
`AA` followed by two digits. -/
theorem simulation_extraction_behaviour (resp : SimResponse) :
    (resp.result.bind SimRpcResult.status = some true →
      simOutcome resp =
        SimulationOutcome.mk SimStatus.success none
          "Simulation succeeded.") ∧
    (¬resp.result.bind SimRpcResult.status = some true →
      (simOutcome resp).status = SimStatus.error ∧
      (simOutcome resp).code = findAACode (topErrorMessage resp).toList) ∧
    (∀ (entry : TraceFrame) (rest : List TraceFrame) (c : String),
      resp.result.bind SimRpcResult.status = some false →
      resp.result.bind SimRpcResult.trace = some (entry :: rest) →
      (frameCombined resp entry ≠ "" →
        (simOutcome resp).message = frameCombined resp entry) ∧
      (frameCombined resp entry = "" → lastFrameFallback resp = some c →
        (simOutcome resp).message = c)) ∧
    (∀ (cs : List Char) (code : String), findAACode cs = some code →
      ∃ d1 d2 : Char, d1.isDigit ∧ d2.isDigit ∧
        code = String.mk ['A', 'A', d1, d2]) := by
  refine ⟨?_, ?_, ?_, findAACode_shape⟩
  · intro h
    simp [simOutcome, h]
  · intro hne
    constructor
    · simp [simOutcome, hne]
    · simp [simOutcome, hne, extractErrorCode]
  · intro entry rest c hfalse htrace
    have hne : ¬resp.result.bind SimRpcResult.status = some true := by
      rw [hfalse]
      simp
    constructor
    · intro hcomb
      have hread : extractReadableError resp = some (frameCombined resp entry) := by
        rw [extractReadableError, if_pos hfalse, htrace]
        dsimp only
        rw [if_pos hcomb]
      simp [simOutcome, hne, hread]
    · intro hcomb hlast
      have hread : extractReadableError resp = some c := by
        rw [extractReadableError, if_pos hfalse, htrace]
        dsimp only
        rw [if_neg (by rw [hcomb]; simp), hlast]
      simp [simOutcome, hne, hread]

theorem simulation_extraction_behaviour_witness :
    simOutcome (SimResponse.mk none (some (SimRpcResult.mk (some true)
        none none))) =
      SimulationOutcome.mk SimStatus.success none "Simulation succeeded." ∧
    (simOutcome (SimResponse.mk none (some (SimRpcResult.mk (some false)
        none (some [TraceFrame.mk (some "E2") none none]))))).message =
      frameCombined (SimResponse.mk none (some (SimRpcResult.mk
        (some false) none (some [TraceFrame.mk (some "E2") none none]))))
        (TraceFrame.mk (some "E2") none none) :=
  ⟨(simulation_extraction_behaviour (SimResponse.mk none
      (some (SimRpcResult.mk (some true) none none)))).1 (by decide),
    ((simulation_extraction_behaviour (SimResponse.mk none
        (some (SimRpcResult.mk (some false) none
          (some [TraceFrame.mk (some "E2") none none]))))).2.2.1
      (TraceFrame.mk (some "E2") none none) [] "unused" (by decide)
      (by decide)).1 (by decide)⟩

/-! ## Scenario injection (from `mutateForPreset`, preset
`AA25_INVALID_NONCE`) -/

/-- The simulation run mode: deliberately corrupted (`bad`) or restored
(`fix`). -/
inductive SimMode where
  | bad
  | fix
deriving DecidableEq, Repr

/-- The UserOperation fields carried through `mutateForPreset` (a plain
record; `signature` is optional because the function deletes it). The
`nonce` is a `uint256` bigint, modelled as `Nat`. -/
structure UserOp where
  sender : String
  nonce : Nat
  factory : Option String
  factoryData : Option String
  initCode : Option String
  callData : String
  callGasLimit : Nat
  verificationGasLimit : Nat
  preVerificationGas : Nat
  maxFeePerGas : Nat
  maxPriorityFeePerGas : Nat
  paymaster : Option String
  paymasterData : Option String
  signature : Option String
deriving DecidableEq, Repr

/-- The `AA25_INVALID_NONCE` branch of `mutateForPreset`: copy the
operation, delete the signature; in `fix` mode return it unchanged; in
`bad` mode set `nonce = nonce === 0n ? 0n : nonce - 1n` (the
`typeof op.nonce === "bigint"` guard always holds in this model because
the nonce is a bigint). -/
def mutateForPresetAA25 (mode : SimMode) (operation : UserOp) : UserOp :=
  let op := { operation with signature := none }
  match mode with
  | SimMode.fix => op
  | SimMode.bad =>
      { op with nonce := if op.nonce = 0 then 0 else op.nonce - 1 }

/-- C10: with preset `AA25_INVALID_NONCE` and mode `bad`, the returned
operation's nonce equals the input nonce minus one exactly when the
input nonce is positive; a zero nonce is left at zero, so for a fresh
account with nonce 0 the `bad` operation is field-for-field identical to
the `fix` operation and no stale nonce is injected; all fields other
than nonce and signature are unchanged in both modes (the signature is
deleted in both). -/
theorem aa25_bad_mode_nonce (op : UserOp) :
    (0 < op.nonce →
      (mutateForPresetAA25 SimMode.bad op).nonce = op.nonce - 1) ∧
    (op.nonce = 0 →
      (mutateForPresetAA25 SimMode.bad op).nonce = 0 ∧
      mutateForPresetAA25 SimMode.bad op =
        mutateForPresetAA25 SimMode.fix op) ∧
    (∀ mode : SimMode,
      (mutateForPresetAA25 mode op).sender = op.sender ∧
      (mutateForPresetAA25 mode op).factory = op.factory ∧
      (mutateForPresetAA25 mode op).factoryData = op.factoryData ∧
      (mutateForPresetAA25 mode op).initCode = op.initCode ∧
      (mutateForPresetAA25 mode op).callData = op.callData ∧
      (mutateForPresetAA25 mode op).callGasLimit = op.callGasLimit ∧
      (mutateForPresetAA25 mode op).verificationGasLimit =
        op.verificationGasLimit ∧
      (mutateForPresetAA25 mode op).preVerificationGas =
        op.preVerificationGas ∧
      (mutateForPresetAA25 mode op).maxFeePerGas = op.maxFeePerGas ∧
      (mutateForPresetAA25 mode op).maxPriorityFeePerGas =
        op.maxPriorityFeePerGas ∧
      (mutateForPresetAA25 mode op).paymaster = op.paymaster ∧
      (mutateForPresetAA25 mode op).paymasterData = op.paymasterData ∧
      (mutateForPresetAA25 mode op).signature = none) ∧
    ((mutateForPresetAA25 SimMode.fix op).nonce = op.nonce) := by
  refine ⟨?_, ?_, ?_, rfl⟩
  · intro hpos
    simp [mutateForPresetAA25]
    omega
  · intro hzero
    constructor
    · simp [mutateForPresetAA25, hzero]
    · simp [mutateForPresetAA25, hzero]
  · intro mode
    cases mode <;> simp [mutateForPresetAA25]

theorem aa25_bad_mode_nonce_witness :
    (mutateForPresetAA25 SimMode.bad
      (UserOp.mk "0xsender" 5 none none none "0xdata" 1 2 3 4 5 none none
        (some "0xsig"))).nonce = 5 - 1 ∧
    mutateForPresetAA25 SimMode.bad
        (UserOp.mk "0xsender" 0 none none none "0xdata" 1 2 3 4 5 none none
          (some "0xsig")) =
      mutateForPresetAA25 SimMode.fix
        (UserOp.mk "0xsender" 0 none none none "0xdata" 1 2 3 4 5 none none
          (some "0xsig")) :=
  ⟨(aa25_bad_mode_nonce (UserOp.mk "0xsender" 5 none none none "0xdata"
      1 2 3 4 5 none none (some "0xsig"))).1 (by norm_num),
    ((aa25_bad_mode_nonce (UserOp.mk "0xsender" 0 none none none "0xdata"
      1 2 3 4 5 none none (some "0xsig"))).2.1 (by norm_num)).2⟩
